import Mathlib

/-
Verification of the Buf (growable byte buffer) abstraction of this repository.

The repository ships the C test harness `test_rust_ffi_buf.c`, which declares
the buffer API (`xmlBufCreate`, `xmlBufCreateMem`, `xmlBufFree`, `xmlBufEmpty`,
`xmlBufGrow`, `xmlBufAdd`, `xmlBufCat`, `xmlBufAvail`, `xmlBufIsEmpty`,
`xmlBufAddLen`, `xmlBufDetach`) as `extern` and exercises it; the implementation
itself (a Rust library) is not part of the shipped sources.  The definitions
below therefore model each operation from the design document, keeping the
concrete success/failure signals that the test harness asserts
(0 on success, -1 on failure; `xmlBufIsEmpty` returns 1 / 0 / -1).

Bytes are modelled as natural numbers, caller memory as `Option (List Nat)`
(`none` is the NULL pointer), and the opaque handle registry as a partial map
from naturals to live buffers, with 0 the invalid-handle sentinel.
-/

set_option autoImplicit false

namespace XmlBuf

/-- A live buffer: `store` is the allocated storage (its length is the
capacity), `length` the number of valid bytes, `isStatic` the Static/Dynamic
mode tag. -/
structure Buffer where
  store : List Nat
  length : Nat
  isStatic : Bool
deriving Repr, DecidableEq

/-- Capacity of a buffer: the size of its storage. -/
def Buffer.capacity (b : Buffer) : Nat := b.store.length

/-- The buffer's current content: the valid prefix of its storage. -/
def Buffer.content (b : Buffer) : List Nat := b.store.take b.length

/-- Per-buffer invariant: the valid length never exceeds the storage size. -/
def BufWF (b : Buffer) : Prop := b.length ≤ b.store.length

instance (b : Buffer) : Decidable (BufWF b) := Nat.decLe _ _

/-- The handle registry: a map from handle values to live buffers, plus the
next handle value to hand out.  Handle 0 is the invalid sentinel and is never
handed out. -/
structure BufState where
  bufs : Nat → Option Buffer
  next : Nat

/-- The initial registry: no live buffers, handles start at 1. -/
def initState : BufState := ⟨fun _ => none, 1⟩

/-- Handle resolution: the invalid handle 0 never refers to a live buffer. -/
def resolve (st : BufState) (h : Nat) : Option Buffer :=
  if h = 0 then none else st.bufs h

/-- Replace the buffer registered at handle `h`. -/
def setBuf (st : BufState) (h : Nat) (b : Buffer) : BufState :=
  ⟨fun k => if k = h then some b else st.bufs k, st.next⟩

/-- Register a fresh buffer and return its newly allocated handle. -/
def insertBuf (st : BufState) (b : Buffer) : BufState × Nat :=
  (⟨fun k => if k = st.next then some b else st.bufs k, st.next + 1⟩, st.next)

/-- Unregister the buffer at handle `h`. -/
def removeBuf (st : BufState) (h : Nat) : BufState :=
  ⟨fun k => if k = h then none else st.bufs k, st.next⟩

/-- Modelled from the spec: `xmlBufCreate` (Rust implementation absent from the
sources; only its extern declaration and tests remain).  Creates an empty
Dynamic buffer with capacity at least the hint; a zero hint is treated as a
request for a reasonable minimum capacity, never an error. -/
def xmlBufCreate (st : BufState) (size : Nat) : BufState × Nat :=
  insertBuf st ⟨List.replicate (if size = 0 then 256 else size) 0, 0, false⟩

/-- Modelled from the spec: `xmlBufCreateMem` (Rust implementation absent from
the sources).  Creating from absent (NULL) memory fails with the invalid
handle and creates nothing; otherwise the first `size` caller bytes become the
buffer's view (Static) or are copied into owned storage (Dynamic), with
`length` set to the view size. -/
def xmlBufCreateMem (st : BufState) (mem : Option (List Nat)) (size : Nat)
    (isStatic : Bool) : BufState × Nat :=
  match mem with
  | none => (st, 0)
  | some bytes =>
    insertBuf st ⟨bytes.take size, (bytes.take size).length, isStatic⟩

/-- Modelled from the spec: `xmlBufFree` (Rust implementation absent from the
sources).  Releases the buffer and invalidates the handle; freeing the invalid
handle is a no-op. -/
def xmlBufFree (st : BufState) (h : Nat) : BufState :=
  if h = 0 then st else removeBuf st h

/-- Modelled from the spec: `xmlBufEmpty` (Rust implementation absent from the
sources).  Resets `length` to 0 keeping the allocated capacity; a no-op on a
Static buffer or the invalid handle. -/
def xmlBufEmpty (st : BufState) (h : Nat) : BufState :=
  match resolve st h with
  | none => st
  | some b => if b.isStatic then st else setBuf st h ⟨b.store, 0, b.isStatic⟩

/-- Grow a buffer's storage so that at least `len` bytes beyond the current
length are available. -/
def growBuf (b : Buffer) (len : Nat) : Buffer :=
  if len ≤ b.store.length - b.length then b
  else ⟨b.store ++ List.replicate (b.length + len - b.store.length) 0,
        b.length, b.isStatic⟩

/-- Modelled from the spec: `xmlBufGrow` (Rust implementation absent from the
sources).  Ensures at least `len` additional capacity beyond the current
length; fails with -1 on the invalid handle or a Static buffer, returns 0 on
success. -/
def xmlBufGrow (st : BufState) (h : Nat) (len : Nat) : BufState × Int :=
  match resolve st h with
  | none => (st, -1)
  | some b => if b.isStatic then (st, -1) else (setBuf st h (growBuf b len), 0)

/-- Write `bytes` into a buffer's storage starting at its current length and
advance the length past them. -/
def writeAt (b : Buffer) (bytes : List Nat) : Buffer :=
  ⟨b.store.take b.length ++ bytes ++ b.store.drop (b.length + bytes.length),
   b.length + bytes.length, b.isStatic⟩

/-- Modelled from the spec: `xmlBufAdd` (Rust implementation absent from the
sources).  Appends `len` bytes from `str` to the content, growing first if
needed; fails with -1 on the invalid handle, a Static buffer, or NULL data,
returns 0 on success. -/
def xmlBufAdd (st : BufState) (h : Nat) (str : Option (List Nat)) (len : Nat) :
    BufState × Int :=
  match resolve st h with
  | none => (st, -1)
  | some b =>
    if b.isStatic then (st, -1)
    else
      match str with
      | none => (st, -1)
      | some s => (setBuf st h (writeAt (growBuf b len) (s.take len)), 0)

/-- Modelled from the spec: `xmlBufCat` (Rust implementation absent from the
sources).  Appends the bytes of `str` up to (excluding) its NUL terminator,
scanning for the terminator itself; same failure conditions and signals as
`xmlBufAdd`. -/
def xmlBufCat (st : BufState) (h : Nat) (str : Option (List Nat)) :
    BufState × Int :=
  match resolve st h with
  | none => (st, -1)
  | some b =>
    if b.isStatic then (st, -1)
    else
      match str with
      | none => (st, -1)
      | some s =>
        (setBuf st h
          (writeAt (growBuf b (s.takeWhile (fun c => c != 0)).length)
            (s.takeWhile (fun c => c != 0))), 0)

/-- Modelled from the spec: `xmlBufAvail` (Rust implementation absent from the
sources).  Returns `capacity - length` for a valid handle and 0 for the
invalid handle. -/
def xmlBufAvail (st : BufState) (h : Nat) : Nat :=
  match resolve st h with
  | none => 0
  | some b => b.store.length - b.length

/-- Modelled from the spec: `xmlBufIsEmpty` (Rust implementation absent from
the sources).  Tri-state: 1 for an empty buffer, 0 for a non-empty one, -1 for
the invalid handle. -/
def xmlBufIsEmpty (st : BufState) (h : Nat) : Int :=
  match resolve st h with
  | none => -1
  | some b => if b.length = 0 then 1 else 0

/-- Modelled from the spec: `xmlBufAddLen` (Rust implementation absent from
the sources).  Advances `length` by `len` without copying bytes; fails with -1
on the invalid handle, a Static buffer, or when the new length would exceed
the capacity, returns 0 on success. -/
def xmlBufAddLen (st : BufState) (h : Nat) (len : Nat) : BufState × Int :=
  match resolve st h with
  | none => (st, -1)
  | some b =>
    if b.isStatic then (st, -1)
    else if b.store.length < b.length + len then (st, -1)
    else (setBuf st h ⟨b.store, b.length + len, b.isStatic⟩, 0)

/-- Modelled from the spec: `xmlBufDetach` (Rust implementation absent from
the sources).  Transfers the content to the caller as a NUL-terminated byte
sequence, leaving the buffer empty with its storage disowned but its handle
live; fails (returns no content) on the invalid handle or a Static buffer. -/
def xmlBufDetach (st : BufState) (h : Nat) : BufState × Option (List Nat) :=
  match resolve st h with
  | none => (st, none)
  | some b =>
    if b.isStatic then (st, none)
    else (setBuf st h ⟨[], 0, false⟩, some (b.store.take b.length ++ [0]))

/-- Registry invariant: handles start at 1 and every live buffer satisfies
`BufWF`. -/
def StateWF (st : BufState) : Prop :=
  1 ≤ st.next ∧ ∀ h b, resolve st h = some b → BufWF b

/-- One API call, for reasoning about arbitrary operation sequences. -/
inductive Op where
  | create (size : Nat)
  | createMem (mem : Option (List Nat)) (size : Nat) (isStatic : Bool)
  | free (h : Nat)
  | empty (h : Nat)
  | grow (h : Nat) (len : Nat)
  | add (h : Nat) (str : Option (List Nat)) (len : Nat)
  | cat (h : Nat) (str : Option (List Nat))
  | avail (h : Nat)
  | isEmptyQ (h : Nat)
  | addLen (h : Nat) (len : Nat)
  | detach (h : Nat)
deriving Repr, DecidableEq

/-- The registry state after one API call (queries leave it unchanged). -/
def applyOp (st : BufState) : Op → BufState
  | .create size => (xmlBufCreate st size).1
  | .createMem mem size isStatic => (xmlBufCreateMem st mem size isStatic).1
  | .free h => xmlBufFree st h
  | .empty h => xmlBufEmpty st h
  | .grow h len => (xmlBufGrow st h len).1
  | .add h str len => (xmlBufAdd st h str len).1
  | .cat h str => (xmlBufCat st h str).1
  | .avail _ => st
  | .isEmptyQ _ => st
  | .addLen h len => (xmlBufAddLen st h len).1
  | .detach h => (xmlBufDetach st h).1

/-- Whether one API call reports its failure signal (handle creation returning
the invalid handle, a -1 return code, or a detach returning no content; `free`,
`empty` and `avail` have no failure signal). -/
def opFailed (st : BufState) : Op → Bool
  | .create size => (xmlBufCreate st size).2 == 0
  | .createMem mem size isStatic => (xmlBufCreateMem st mem size isStatic).2 == 0
  | .free _ => false
  | .empty _ => false
  | .grow h len => (xmlBufGrow st h len).2 == -1
  | .add h str len => (xmlBufAdd st h str len).2 == -1
  | .cat h str => (xmlBufCat st h str).2 == -1
  | .avail _ => false
  | .isEmptyQ h => xmlBufIsEmpty st h == -1
  | .addLen h len => (xmlBufAddLen st h len).2 == -1
  | .detach h => (xmlBufDetach st h).2 == none

lemma resolve_eq (st : BufState) (k : Nat) :
    resolve st k = if k = 0 then none else st.bufs k := rfl

lemma resolve_ne_zero {st : BufState} {h : Nat} {b : Buffer}
    (hr : resolve st h = some b) : h ≠ 0 := by
  intro h0
  rw [resolve_eq, if_pos h0] at hr
  exact Option.noConfusion hr

lemma resolve_setBuf (st : BufState) (h k : Nat) (b : Buffer) :
    resolve (setBuf st h b) k =
      if k = 0 then none else if k = h then some b else st.bufs k := by
  simp [resolve, setBuf]

lemma resolve_setBuf_self {st : BufState} {h : Nat} (b : Buffer) (h0 : h ≠ 0) :
    resolve (setBuf st h b) h = some b := by
  rw [resolve_setBuf, if_neg h0, if_pos rfl]

lemma resolve_insertBuf (st : BufState) (b : Buffer) (k : Nat) :
    resolve (insertBuf st b).1 k =
      if k = 0 then none else if k = st.next then some b else st.bufs k := by
  simp [resolve, insertBuf]

lemma resolve_removeBuf (st : BufState) (h k : Nat) :
    resolve (removeBuf st h) k =
      if k = 0 then none else if k = h then none else st.bufs k := by
  simp [resolve, removeBuf]

lemma resolve_setBuf_cases {st : BufState} {h k : Nat} {b b' : Buffer}
    (hr : resolve (setBuf st h b) k = some b') :
    b' = b ∨ resolve st k = some b' := by
  rw [resolve_setBuf] at hr
  by_cases hk0 : k = 0
  · rw [if_pos hk0] at hr; exact Option.noConfusion hr
  · rw [if_neg hk0] at hr
    by_cases hkh : k = h
    · rw [if_pos hkh] at hr
      exact Or.inl (Option.some.inj hr).symm
    · rw [if_neg hkh] at hr
      exact Or.inr (by rw [resolve_eq, if_neg hk0]; exact hr)

lemma growBuf_length (b : Buffer) (len : Nat) : (growBuf b len).length = b.length := by
  unfold growBuf; split <;> rfl

lemma growBuf_isStatic (b : Buffer) (len : Nat) :
    (growBuf b len).isStatic = b.isStatic := by
  unfold growBuf; split <;> rfl

lemma growBuf_room {b : Buffer} (hb : BufWF b) (len : Nat) :
    b.length + len ≤ (growBuf b len).store.length := by
  unfold BufWF at hb
  unfold growBuf
  split
  · omega
  · simp only [List.length_append, List.length_replicate]
    omega

lemma bufWF_growBuf {b : Buffer} (hb : BufWF b) (len : Nat) :
    BufWF (growBuf b len) := by
  have := growBuf_room hb len
  unfold BufWF
  rw [growBuf_length]
  omega

lemma growBuf_content {b : Buffer} (hb : BufWF b) (len : Nat) :
    (growBuf b len).content = b.content := by
  unfold BufWF at hb
  unfold growBuf Buffer.content
  split
  · rfl
  · exact List.take_append_of_le_length hb

lemma writeAt_length (b : Buffer) (bytes : List Nat) :
    (writeAt b bytes).length = b.length + bytes.length := rfl

lemma writeAt_isStatic (b : Buffer) (bytes : List Nat) :
    (writeAt b bytes).isStatic = b.isStatic := rfl

lemma writeAt_store_length {b : Buffer} {bytes : List Nat}
    (hroom : b.length + bytes.length ≤ b.store.length) :
    (writeAt b bytes).store.length = b.store.length := by
  unfold writeAt
  simp only [List.length_append, List.length_take, List.length_drop]
  omega

lemma bufWF_writeAt {b : Buffer} {bytes : List Nat}
    (hroom : b.length + bytes.length ≤ b.store.length) :
    BufWF (writeAt b bytes) := by
  unfold BufWF
  rw [writeAt_length, writeAt_store_length hroom]
  exact hroom

lemma writeAt_content {b : Buffer} {bytes : List Nat}
    (hroom : b.length + bytes.length ≤ b.store.length) :
    (writeAt b bytes).content = b.content ++ bytes := by
  have hL : b.length ≤ b.store.length := le_trans (Nat.le_add_right _ _) hroom
  have hlen : (b.store.take b.length ++ bytes).length = b.length + bytes.length := by
    simp only [List.length_append, List.length_take]
    omega
  show (b.store.take b.length ++ bytes ++ b.store.drop (b.length + bytes.length)).take
      (b.length + bytes.length) = b.store.take b.length ++ bytes
  calc (b.store.take b.length ++ bytes ++ b.store.drop (b.length + bytes.length)).take
        (b.length + bytes.length)
      = (b.store.take b.length ++ bytes).take (b.length + bytes.length) :=
        List.take_append_of_le_length (le_of_eq hlen.symm)
    _ = b.store.take b.length ++ bytes := by
        rw [← hlen]; exact List.take_length _

lemma takeWhile_take (p : Nat → Bool) (s : List Nat) :
    s.take (s.takeWhile p).length = s.takeWhile p := by
  induction s with
  | nil => rfl
  | cons a t ih =>
    by_cases hp : p a
    · simp [List.takeWhile_cons, hp, ih]
    · simp [List.takeWhile_cons, hp]

lemma stateWF_initState : StateWF initState := by
  refine ⟨le_refl 1, fun h b hr => ?_⟩
  rw [resolve_eq] at hr
  split at hr
  · exact Option.noConfusion hr
  · exact Option.noConfusion hr

lemma stateWF_setBuf {st : BufState} (hwf : StateWF st) {h : Nat} {b : Buffer}
    (hb : BufWF b) : StateWF (setBuf st h b) := by
  refine ⟨hwf.1, fun k b' hr => ?_⟩
  rcases resolve_setBuf_cases hr with he | hr'
  · exact he ▸ hb
  · exact hwf.2 k b' hr'

lemma stateWF_insertBuf {st : BufState} (hwf : StateWF st) {b : Buffer}
    (hb : BufWF b) : StateWF (insertBuf st b).1 := by
  refine ⟨le_trans hwf.1 (Nat.le_succ _), fun k b' hr => ?_⟩
  rw [resolve_insertBuf] at hr
  split at hr
  · exact Option.noConfusion hr
  · split at hr
    · exact (Option.some.inj hr) ▸ hb
    · refine hwf.2 k b' ?_
      rw [resolve_eq]
      simp_all

lemma stateWF_removeBuf {st : BufState} (hwf : StateWF st) (h : Nat) :
    StateWF (removeBuf st h) := by
  refine ⟨hwf.1, fun k b' hr => ?_⟩
  rw [resolve_removeBuf] at hr
  split at hr
  · exact Option.noConfusion hr
  · split at hr
    · exact Option.noConfusion hr
    · refine hwf.2 k b' ?_
      rw [resolve_eq]
      simp_all

lemma stateWF_applyOp (st : BufState) (op : Op) (hwf : StateWF st) :
    StateWF (applyOp st op) := by
  cases op with
  | create size =>
    exact stateWF_insertBuf hwf (by unfold BufWF; exact Nat.zero_le _)
  | createMem mem size isStatic =>
    cases mem with
    | none => exact hwf
    | some bytes => exact stateWF_insertBuf hwf (by unfold BufWF; exact le_refl _)
  | free h =>
    simp only [applyOp, xmlBufFree]
    by_cases h0 : h = 0
    · simp [h0]; exact hwf
    · simp [h0]; exact stateWF_removeBuf hwf h
  | empty h =>
    simp only [applyOp, xmlBufEmpty]
    cases hr : resolve st h with
    | none => exact hwf
    | some b =>
      by_cases hs : b.isStatic
      · simp [hs]; exact hwf
      · simp [hs]
        exact stateWF_setBuf hwf (by unfold BufWF; exact Nat.zero_le _)
  | grow h len =>
    simp only [applyOp, xmlBufGrow]
    cases hr : resolve st h with
    | none => exact hwf
    | some b =>
      by_cases hs : b.isStatic
      · simp [hs]; exact hwf
      · simp [hs]
        exact stateWF_setBuf hwf (bufWF_growBuf (hwf.2 h b hr) len)
  | add h str len =>
    simp only [applyOp, xmlBufAdd]
    cases hr : resolve st h with
    | none => exact hwf
    | some b =>
      by_cases hs : b.isStatic
      · simp [hs]; exact hwf
      · simp only [hs, if_neg Bool.false_ne_true, Bool.false_eq_true, if_false]
        cases str with
        | none => exact hwf
        | some s =>
          have hb := hwf.2 h b hr
          have h1 := growBuf_room hb len
          have h2 : (s.take len).length ≤ len := by
            simp only [List.length_take]
            omega
          simp only []
          refine stateWF_setBuf hwf (bufWF_writeAt ?_)
          rw [growBuf_length]
          omega
  | cat h str =>
    simp only [applyOp, xmlBufCat]
    cases hr : resolve st h with
    | none => exact hwf
    | some b =>
      by_cases hs : b.isStatic
      · simp [hs]; exact hwf
      · cases str with
        | none => simp [hs]; exact hwf
        | some s =>
          have hb := hwf.2 h b hr
          have h1 := growBuf_room hb (s.takeWhile (fun c => c != 0)).length
          simp only [hs, Bool.false_eq_true, if_false]
          refine stateWF_setBuf hwf (bufWF_writeAt ?_)
          rw [growBuf_length]
          omega
  | avail h => exact hwf
  | isEmptyQ h => exact hwf
  | addLen h len =>
    simp only [applyOp, xmlBufAddLen]
    cases hr : resolve st h with
    | none => exact hwf
    | some b =>
      by_cases hs : b.isStatic
      · simp [hs]; exact hwf
      · by_cases hcap : b.store.length < b.length + len
        · simp [hs, hcap]; exact hwf
        · simp [hs, hcap]
          exact stateWF_setBuf hwf (by unfold BufWF; simp; omega)
  | detach h =>
    simp only [applyOp, xmlBufDetach]
    cases hr : resolve st h with
    | none => exact hwf
    | some b =>
      by_cases hs : b.isStatic
      · simp [hs]; exact hwf
      · simp [hs]
        exact stateWF_setBuf hwf (by unfold BufWF; exact le_refl _)

lemma stateWF_foldl (ops : List Op) :
    ∀ st : BufState, StateWF st → StateWF (ops.foldl applyOp st) := by
  induction ops with
  | nil => exact fun _ h => h
  | cons op rest ih => exact fun st h => ih _ (stateWF_applyOp st op h)

/-- The bytes of "Hello". -/
def hello : List Nat := [72, 101, 108, 108, 111]

/-- The bytes of "Static content". -/
def staticBytes : List Nat :=
  [83, 116, 97, 116, 105, 99, 32, 99, 111, 110, 116, 101, 110, 116]

/-- A registry holding one fresh Dynamic buffer of capacity 10 (handle 1). -/
def st1 : BufState := (xmlBufCreate initState 10).1

/-- `st1` after appending "Hello" to the buffer at handle 1. -/
def st2 : BufState := (xmlBufAdd st1 1 (some hello) 5).1

/-- A registry holding one Static buffer over "Static content" (handle 1). -/
def stS : BufState := (xmlBufCreateMem initState (some staticBytes) 14 true).1

/-- Claim C3: every operation given the invalid (zero) handle returns its
documented failure signal without dereferencing anything: Add and Grow return
the InvalidHandle signal -1 leaving the state unchanged, IsEmpty returns the
distinct failure indicator -1, Avail returns 0, and Free is a no-op. -/
theorem invalid_handle_operations_fail (st : BufState) :
    (∀ s n, xmlBufAdd st 0 s n = (st, -1)) ∧
    (∀ n, xmlBufGrow st 0 n = (st, -1)) ∧
    xmlBufIsEmpty st 0 = -1 ∧
    xmlBufAvail st 0 = 0 ∧
    xmlBufFree st 0 = st :=
  ⟨fun _ _ => rfl, fun _ => rfl, rfl, rfl, rfl⟩

/-- Claim C7: creating a buffer from absent (null) memory fails with the
invalid handle 0 for every requested length and Static/Dynamic flag, and the
registry is unchanged: no valid empty buffer is ever created. -/
theorem createMem_null_fails (st : BufState) (size : Nat) (isStatic : Bool) :
    xmlBufCreateMem st none size isStatic = (st, 0) := rfl

/-- Claim C2: every mutating call on a Static buffer (Add, Cat, Grow, AddLen,
Detach) returns the explicit NotPermitted signal (-1, or no content for
Detach) and leaves the registry state, hence the external memory and the
buffer's observable length, exactly unchanged. -/
theorem static_buffer_mutations_rejected (st : BufState) (h : Nat) (b : Buffer)
    (hr : resolve st h = some b) (hs : b.isStatic = true) :
    (∀ s n, xmlBufAdd st h s n = (st, -1)) ∧
    (∀ s, xmlBufCat st h s = (st, -1)) ∧
    (∀ n, xmlBufGrow st h n = (st, -1)) ∧
    (∀ n, xmlBufAddLen st h n = (st, -1)) ∧
    xmlBufDetach st h = (st, none) := by
  refine ⟨fun s n => ?_, fun s => ?_, fun n => ?_, fun n => ?_, ?_⟩ <;>
    simp [xmlBufAdd, xmlBufCat, xmlBufGrow, xmlBufAddLen, xmlBufDetach, hr, hs]

/-- Witness for claim C2 at the Static buffer over "Static content". -/
theorem static_buffer_mutations_rejected_witness :
    xmlBufAdd stS 1 (some [109, 111, 114, 101]) 4 = (stS, -1) ∧
    xmlBufGrow stS 1 100 = (stS, -1) ∧
    xmlBufDetach stS 1 = (stS, none) := by
  have t := static_buffer_mutations_rejected stS 1 ⟨staticBytes, 14, true⟩
    (by decide) (by decide)
  exact ⟨t.1 _ _, t.2.2.1 _, t.2.2.2.2⟩

/-- Claim C9: Cat is equivalent to Add with the length computed by scanning
the data for its NUL terminator: same resulting state and same signal, and for
NULL data both fail identically whatever length Add is given. -/
theorem cat_equals_add_with_scanned_length (st : BufState) (h : Nat) :
    (∀ s, xmlBufCat st h (some s) =
      xmlBufAdd st h (some s) (s.takeWhile (fun c => c != 0)).length) ∧
    (∀ n, xmlBufCat st h none = xmlBufAdd st h none n) := by
  constructor
  · intro s
    unfold xmlBufCat xmlBufAdd
    cases hr : resolve st h with
    | none => rfl
    | some b =>
      by_cases hs : b.isStatic
      · simp [hs]
      · simp [hs, takeWhile_take]
  · intro n
    unfold xmlBufCat xmlBufAdd
    cases hr : resolve st h with
    | none => rfl
    | some b =>
      by_cases hs : b.isStatic
      · simp [hs]
      · simp [hs]

/-- Claim C5: whenever Grow(h, n) succeeds (signal 0), the available space
(capacity minus length) of the buffer at h afterwards is at least n. -/
theorem grow_success_avail (st : BufState) (h : Nat) (n : Nat)
    (hok : (xmlBufGrow st h n).2 = 0) :
    n ≤ xmlBufAvail (xmlBufGrow st h n).1 h := by
  cases hr : resolve st h with
  | none =>
    rw [show xmlBufGrow st h n = (st, -1) from by unfold xmlBufGrow; rw [hr]]
      at hok
    simp at hok
  | some b =>
    by_cases hs : b.isStatic
    · rw [show xmlBufGrow st h n = (st, -1) from by
        unfold xmlBufGrow; rw [hr]; simp [hs]] at hok
      simp at hok
    · have h0 : h ≠ 0 := resolve_ne_zero hr
      have hgrow : xmlBufGrow st h n = (setBuf st h (growBuf b n), 0) := by
        unfold xmlBufGrow; rw [hr]; simp [hs]
      rw [hgrow]
      have havail : xmlBufAvail (setBuf st h (growBuf b n)) h =
          (growBuf b n).store.length - (growBuf b n).length := by
        unfold xmlBufAvail
        rw [resolve_setBuf_self _ h0]
      rw [havail, growBuf_length]
      unfold growBuf
      split
      · omega
      · simp only [List.length_append, List.length_replicate]
        omega

/-- Witness for claim C5: growing the fresh capacity-10 buffer to 100 bytes of
room succeeds and leaves at least 100 bytes available. -/
theorem grow_success_avail_witness :
    100 ≤ xmlBufAvail (xmlBufGrow st1 1 100).1 1 :=
  grow_success_avail st1 1 100 (by decide)

/-- Claim C1: Detach on a valid Dynamic buffer returns exactly its content
bytes followed by the NUL terminator; afterwards the handle still resolves to
a live, empty Dynamic buffer, IsEmpty reports 1, and any further Add succeeds
(the buffer is not destroyed by Detach). -/
theorem detach_returns_content_and_keeps_handle (st : BufState) (h : Nat)
    (b : Buffer) (hr : resolve st h = some b) (hs : b.isStatic = false)
    (hne : 0 < b.length) :
    (xmlBufDetach st h).2 = some (b.content ++ [0]) ∧
    resolve (xmlBufDetach st h).1 h = some ⟨[], 0, false⟩ ∧
    xmlBufIsEmpty (xmlBufDetach st h).1 h = 1 ∧
    (∀ s n, (xmlBufAdd (xmlBufDetach st h).1 h (some s) n).2 = 0) := by
  have h0 : h ≠ 0 := resolve_ne_zero hr
  have hd : xmlBufDetach st h =
      (setBuf st h ⟨[], 0, false⟩, some (b.store.take b.length ++ [0])) := by
    unfold xmlBufDetach; rw [hr]; simp [hs]
  rw [hd]
  have hres : resolve (setBuf st h ⟨[], 0, false⟩) h = some ⟨[], 0, false⟩ :=
    resolve_setBuf_self _ h0
  refine ⟨rfl, hres, ?_, ?_⟩
  · unfold xmlBufIsEmpty
    rw [hres]
    rfl
  · intro s n
    unfold xmlBufAdd
    rw [hres]
    rfl

/-- Witness for claim C1 at the buffer containing "Hello". -/
theorem detach_returns_content_witness :
    (xmlBufDetach st2 1).2 = some [72, 101, 108, 108, 111, 0] ∧
    xmlBufIsEmpty (xmlBufDetach st2 1).1 1 = 1 ∧
    (xmlBufAdd (xmlBufDetach st2 1).1 1 (some [65]) 1).2 = 0 := by
  have t := detach_returns_content_and_keeps_handle st2 1
    ⟨[72, 101, 108, 108, 111, 0, 0, 0, 0, 0], 5, false⟩
    (by decide) (by decide) (by decide)
  exact ⟨by rw [t.1]; decide, t.2.2.1, t.2.2.2 [65] 1⟩

/-- Claim C4 (amended): on a Dynamic buffer with a valid handle, a successful
Add(h, data, n) increases the length by exactly n and the content afterwards
is the previous content followed by exactly the n appended bytes; and whenever
n ≥ 1, IsEmpty(h) afterwards reports non-empty (0). -/
theorem add_success_postconditions (st : BufState) (h : Nat) (b : Buffer)
    (s : List Nat) (n : Nat) (hb : BufWF b) (hr : resolve st h = some b)
    (hs : b.isStatic = false) (hn : n ≤ s.length) :
    (xmlBufAdd st h (some s) n).2 = 0 ∧
    ∃ b', resolve (xmlBufAdd st h (some s) n).1 h = some b' ∧
      b'.length = b.length + n ∧
      b'.content = b.content ++ s.take n ∧
      (1 ≤ n → xmlBufIsEmpty (xmlBufAdd st h (some s) n).1 h = 0) := by
  have h0 : h ≠ 0 := resolve_ne_zero hr
  have hadd : xmlBufAdd st h (some s) n =
      (setBuf st h (writeAt (growBuf b n) (s.take n)), 0) := by
    unfold xmlBufAdd; rw [hr]; simp [hs]
  have hroom : (growBuf b n).length + (s.take n).length ≤
      (growBuf b n).store.length := by
    have h1 := growBuf_room hb n
    have h2 : (s.take n).length ≤ n := by
      simp only [List.length_take]
      omega
    rw [growBuf_length]
    omega
  have hres : resolve (setBuf st h (writeAt (growBuf b n) (s.take n))) h =
      some (writeAt (growBuf b n) (s.take n)) :=
    resolve_setBuf_self _ h0
  have hlen : (writeAt (growBuf b n) (s.take n)).length = b.length + n := by
    rw [writeAt_length, growBuf_length]
    simp only [List.length_take]
    omega
  rw [hadd]
  refine ⟨rfl, writeAt (growBuf b n) (s.take n), hres, hlen, ?_, ?_⟩
  · rw [writeAt_content hroom, growBuf_content hb]
  · intro h1
    unfold xmlBufIsEmpty
    rw [hres]
    have hnz : (writeAt (growBuf b n) (s.take n)).length ≠ 0 := by omega
    simp [hnz]

/-- Witness for claim C4 (amended) at the fresh buffer and "Hello". -/
theorem add_success_postconditions_witness :
    (xmlBufAdd st1 1 (some hello) 5).2 = 0 ∧
    xmlBufIsEmpty (xmlBufAdd st1 1 (some hello) 5).1 1 = 0 := by
  have t := add_success_postconditions st1 1 ⟨List.replicate 10 0, 0, false⟩
    hello 5 (by decide) (by decide) (by decide) (by decide)
  rcases t.2 with ⟨b', _, _, _, hie⟩
  exact ⟨t.1, hie (by decide)⟩

/-- Counterexample to claim C4 as stated: Add with length 0 on an empty
Dynamic buffer succeeds (signal 0), yet IsEmpty afterwards still reports 1:
a successful Add does not always make the buffer non-empty. -/
theorem add_zero_counterexample :
    (xmlBufAdd st1 1 (some []) 0).2 = 0 ∧
    xmlBufIsEmpty (xmlBufAdd st1 1 (some []) 0).1 1 = 1 := by
  decide

/-- Claim C6: after any sequence of operations starting from the initial
registry, every live buffer satisfies length ≤ capacity; and in particular
AddLen(h, n) fails with -1 on a Dynamic buffer whenever advancing the length
by n would exceed the capacity. -/
theorem length_le_capacity_invariant :
    (∀ ops : List Op, ∀ h b,
      resolve (List.foldl applyOp initState ops) h = some b →
      b.length ≤ b.capacity) ∧
    (∀ st h b n, resolve st h = some b → b.isStatic = false →
      b.capacity < b.length + n → (xmlBufAddLen st h n).2 = -1) := by
  constructor
  · intro ops h b hr
    exact (stateWF_foldl ops initState stateWF_initState).2 h b hr
  · intro st h b n hr hs hcap
    have : xmlBufAddLen st h n = (st, -1) := by
      unfold xmlBufAddLen
      rw [hr]
      simp [hs]
      exact hcap
    rw [this]

/-- Witness for claim C6: the invariant after creating a buffer and adding
"Hello", and an AddLen overflow rejection on the fresh buffer. -/
theorem length_le_capacity_invariant_witness :
    Buffer.length ⟨[72, 101, 108, 108, 111, 0, 0, 0, 0, 0], 5, false⟩ ≤
      Buffer.capacity ⟨[72, 101, 108, 108, 111, 0, 0, 0, 0, 0], 5, false⟩ ∧
    (xmlBufAddLen st1 1 20).2 = -1 := by
  constructor
  · exact length_le_capacity_invariant.1 [Op.create 10, Op.add 1 (some hello) 5]
      1 ⟨[72, 101, 108, 108, 111, 0, 0, 0, 0, 0], 5, false⟩ (by decide)
  · exact length_le_capacity_invariant.2 st1 1 ⟨List.replicate 10 0, 0, false⟩
      20 (by decide) (by decide) (by decide)

/-- Claim C8: failing operations are all-or-nothing: in a well-formed registry,
any operation that reports its failure signal leaves the registry state — and
hence every buffer's content, length, capacity and mode — exactly unchanged. -/
theorem failed_op_leaves_state_unchanged (st : BufState) (op : Op)
    (hwf : StateWF st) (hfail : opFailed st op = true) : applyOp st op = st := by
  have hnext := hwf.1
  cases op with
  | create size =>
    exfalso
    simp [opFailed, xmlBufCreate, insertBuf] at hfail
    omega
  | createMem mem size isStatic =>
    cases mem with
    | none => rfl
    | some bytes =>
      exfalso
      simp [opFailed, xmlBufCreateMem, insertBuf] at hfail
      omega
  | free h => simp [opFailed] at hfail
  | empty h => simp [opFailed] at hfail
  | avail h => simp [opFailed] at hfail
  | isEmptyQ h => rfl
  | grow h len =>
    cases hr : resolve st h with
    | none =>
      have hg : xmlBufGrow st h len = (st, -1) := by unfold xmlBufGrow; rw [hr]
      simp [applyOp, hg]
    | some b =>
      by_cases hs : b.isStatic
      · have hg : xmlBufGrow st h len = (st, -1) := by
          unfold xmlBufGrow; rw [hr]; simp [hs]
        simp [applyOp, hg]
      · exfalso
        have hg : xmlBufGrow st h len = (setBuf st h (growBuf b len), 0) := by
          unfold xmlBufGrow; rw [hr]; simp [hs]
        simp [opFailed, hg] at hfail
  | add h str len =>
    cases hr : resolve st h with
    | none =>
      have hg : xmlBufAdd st h str len = (st, -1) := by unfold xmlBufAdd; rw [hr]
      simp [applyOp, hg]
    | some b =>
      by_cases hs : b.isStatic
      · have hg : xmlBufAdd st h str len = (st, -1) := by
          unfold xmlBufAdd; rw [hr]; simp [hs]
        simp [applyOp, hg]
      · cases str with
        | none =>
          have hg : xmlBufAdd st h none len = (st, -1) := by
            unfold xmlBufAdd; rw [hr]; simp [hs]
          simp [applyOp, hg]
        | some s =>
          exfalso
          have hg : xmlBufAdd st h (some s) len =
              (setBuf st h (writeAt (growBuf b len) (s.take len)), 0) := by
            unfold xmlBufAdd; rw [hr]; simp [hs]
          simp [opFailed, hg] at hfail
  | cat h str =>
    cases hr : resolve st h with
    | none =>
      have hg : xmlBufCat st h str = (st, -1) := by unfold xmlBufCat; rw [hr]
      simp [applyOp, hg]
    | some b =>
      by_cases hs : b.isStatic
      · have hg : xmlBufCat st h str = (st, -1) := by
          unfold xmlBufCat; rw [hr]; simp [hs]
        simp [applyOp, hg]
      · cases str with
        | none =>
          have hg : xmlBufCat st h none = (st, -1) := by
            unfold xmlBufCat; rw [hr]; simp [hs]
          simp [applyOp, hg]
        | some s =>
          exfalso
          have hg : xmlBufCat st h (some s) =
              (setBuf st h
                (writeAt (growBuf b (s.takeWhile (fun c => c != 0)).length)
                  (s.takeWhile (fun c => c != 0))), 0) := by
            unfold xmlBufCat; rw [hr]; simp [hs]
          simp [opFailed, hg] at hfail
  | addLen h len =>
    cases hr : resolve st h with
    | none =>
      have hg : xmlBufAddLen st h len = (st, -1) := by
        unfold xmlBufAddLen; rw [hr]
      simp [applyOp, hg]
    | some b =>
      by_cases hs : b.isStatic
      · have hg : xmlBufAddLen st h len = (st, -1) := by
          unfold xmlBufAddLen; rw [hr]; simp [hs]
        simp [applyOp, hg]
      · by_cases hcap : b.store.length < b.length + len
        · have hg : xmlBufAddLen st h len = (st, -1) := by
            unfold xmlBufAddLen; rw [hr]; simp [hs, hcap]
          simp [applyOp, hg]
        · exfalso
          have hg : xmlBufAddLen st h len =
              (setBuf st h ⟨b.store, b.length + len, b.isStatic⟩, 0) := by
            unfold xmlBufAddLen; rw [hr]; simp [hs, hcap]
          simp [opFailed, hg] at hfail
  | detach h =>
    cases hr : resolve st h with
    | none =>
      have hg : xmlBufDetach st h = (st, none) := by unfold xmlBufDetach; rw [hr]
      simp [applyOp, hg]
    | some b =>
      by_cases hs : b.isStatic
      · have hg : xmlBufDetach st h = (st, none) := by
          unfold xmlBufDetach; rw [hr]; simp [hs]
        simp [applyOp, hg]
      · exfalso
        have hg : xmlBufDetach st h =
            (setBuf st h ⟨[], 0, false⟩,
              some (b.store.take b.length ++ [0])) := by
          unfold xmlBufDetach; rw [hr]; simp [hs]
        simp [opFailed, hg] at hfail

/-- Witness for claim C8: the failing Add on the invalid handle leaves the
initial registry unchanged. -/
theorem failed_op_leaves_state_unchanged_witness :
    applyOp initState (Op.add 0 none 0) = initState :=
  failed_op_leaves_state_unchanged initState (Op.add 0 none 0)
    stateWF_initState (by decide)

/-- Claim C10: the concrete signal values are fixed integers: Add, Cat, Grow
and AddLen return only 0 or -1, returning -1 on every failure case (invalid
handle, Static buffer, NULL data, AddLen capacity overflow) and 0 on success,
and IsEmpty returns exactly 1 for an empty buffer, 0 for a non-empty one and
-1 for an invalid handle. -/
theorem return_code_conventions (st : BufState) (h : Nat) :
    (∀ s n, (xmlBufAdd st h s n).2 = 0 ∨ (xmlBufAdd st h s n).2 = -1) ∧
    (∀ s, (xmlBufCat st h s).2 = 0 ∨ (xmlBufCat st h s).2 = -1) ∧
    (∀ n, (xmlBufGrow st h n).2 = 0 ∨ (xmlBufGrow st h n).2 = -1) ∧
    (∀ n, (xmlBufAddLen st h n).2 = 0 ∨ (xmlBufAddLen st h n).2 = -1) ∧
    (resolve st h = none →
      (∀ s n, (xmlBufAdd st h s n).2 = -1) ∧
      (∀ s, (xmlBufCat st h s).2 = -1) ∧
      (∀ n, (xmlBufGrow st h n).2 = -1) ∧
      (∀ n, (xmlBufAddLen st h n).2 = -1) ∧
      xmlBufIsEmpty st h = -1) ∧
    (∀ b, resolve st h = some b → b.isStatic = true →
      (∀ s n, (xmlBufAdd st h s n).2 = -1) ∧
      (∀ s, (xmlBufCat st h s).2 = -1) ∧
      (∀ n, (xmlBufGrow st h n).2 = -1) ∧
      (∀ n, (xmlBufAddLen st h n).2 = -1)) ∧
    (∀ b, resolve st h = some b → b.isStatic = false →
      (∀ s n, (xmlBufAdd st h (some s) n).2 = 0) ∧
      (∀ s, (xmlBufCat st h (some s)).2 = 0) ∧
      (∀ n, (xmlBufGrow st h n).2 = 0) ∧
      (∀ n, b.length + n ≤ b.capacity → (xmlBufAddLen st h n).2 = 0)) ∧
    (∀ b, resolve st h = some b →
      (b.length = 0 → xmlBufIsEmpty st h = 1) ∧
      (b.length ≠ 0 → xmlBufIsEmpty st h = 0)) := by
  cases hr : resolve st h with
  | none =>
    have hadd : ∀ s n, xmlBufAdd st h s n = (st, -1) := by
      intro s n; unfold xmlBufAdd; rw [hr]
    have hcat : ∀ s, xmlBufCat st h s = (st, -1) := by
      intro s; unfold xmlBufCat; rw [hr]
    have hgrow : ∀ n, xmlBufGrow st h n = (st, -1) := by
      intro n; unfold xmlBufGrow; rw [hr]
    have haddlen : ∀ n, xmlBufAddLen st h n = (st, -1) := by
      intro n; unfold xmlBufAddLen; rw [hr]
    have hie : xmlBufIsEmpty st h = -1 := by
      unfold xmlBufIsEmpty; rw [hr]
    refine ⟨fun s n => Or.inr (by rw [hadd]),
      fun s => Or.inr (by rw [hcat]),
      fun n => Or.inr (by rw [hgrow]),
      fun n => Or.inr (by rw [haddlen]),
      fun _ => ⟨fun s n => by rw [hadd], fun s => by rw [hcat],
        fun n => by rw [hgrow], fun n => by rw [haddlen], hie⟩,
      fun b hb => Option.noConfusion hb,
      fun b hb => Option.noConfusion hb,
      fun b hb => Option.noConfusion hb⟩
  | some b =>
    have hinj : ∀ b', some b = some b' → b' = b := by
      intro b' hb'
      exact (Option.some.inj hb').symm
    by_cases hs : b.isStatic
    · have hadd : ∀ s n, xmlBufAdd st h s n = (st, -1) := by
        intro s n; unfold xmlBufAdd; rw [hr]; simp [hs]
      have hcat : ∀ s, xmlBufCat st h s = (st, -1) := by
        intro s; unfold xmlBufCat; rw [hr]; simp [hs]
      have hgrow : ∀ n, xmlBufGrow st h n = (st, -1) := by
        intro n; unfold xmlBufGrow; rw [hr]; simp [hs]
      have haddlen : ∀ n, xmlBufAddLen st h n = (st, -1) := by
        intro n; unfold xmlBufAddLen; rw [hr]; simp [hs]
      have hie : xmlBufIsEmpty st h = if b.length = 0 then 1 else 0 := by
        unfold xmlBufIsEmpty; rw [hr]
      refine ⟨fun s n => Or.inr (by rw [hadd]),
        fun s => Or.inr (by rw [hcat]),
        fun n => Or.inr (by rw [hgrow]),
        fun n => Or.inr (by rw [haddlen]),
        fun hnone => Option.noConfusion hnone,
        fun b' hb' _ => ⟨fun s n => by rw [hadd], fun s => by rw [hcat],
          fun n => by rw [hgrow], fun n => by rw [haddlen]⟩,
        fun b' hb' hdyn => absurd hs (by rw [hinj b' hb'] at hdyn; simp [hdyn]),
        fun b' hb' => ?_⟩
      rw [hinj b' hb']
      constructor
      · intro hz; rw [hie, if_pos hz]
      · intro hz; rw [hie, if_neg hz]
    · have haddo : ∀ s n, xmlBufAdd st h (some s) n =
          (setBuf st h (writeAt (growBuf b n) (s.take n)), 0) := by
        intro s n; unfold xmlBufAdd; rw [hr]; simp [hs]
      have haddn : ∀ n, xmlBufAdd st h none n = (st, -1) := by
        intro n; unfold xmlBufAdd; rw [hr]; simp [hs]
      have hcato : ∀ s, xmlBufCat st h (some s) =
          (setBuf st h
            (writeAt (growBuf b (s.takeWhile (fun c => c != 0)).length)
              (s.takeWhile (fun c => c != 0))), 0) := by
        intro s; unfold xmlBufCat; rw [hr]; simp [hs]
      have hcatn : xmlBufCat st h none = (st, -1) := by
        unfold xmlBufCat; rw [hr]; simp [hs]
      have hgrow : ∀ n, xmlBufGrow st h n = (setBuf st h (growBuf b n), 0) := by
        intro n; unfold xmlBufGrow; rw [hr]; simp [hs]
      have haddlen : ∀ n, b.length + n ≤ b.store.length →
          xmlBufAddLen st h n =
            (setBuf st h ⟨b.store, b.length + n, b.isStatic⟩, 0) := by
        intro n hcap
        unfold xmlBufAddLen
        rw [hr]
        simp [hs]
        omega
      have haddlen2 : ∀ n, (xmlBufAddLen st h n).2 = 0 ∨
          (xmlBufAddLen st h n).2 = -1 := by
        intro n
        by_cases hcap : b.store.length < b.length + n
        · refine Or.inr ?_
          have : xmlBufAddLen st h n = (st, -1) := by
            unfold xmlBufAddLen; rw [hr]; simp [hs]; exact hcap
          rw [this]
        · exact Or.inl (by rw [haddlen n (by omega)])
      have hie : xmlBufIsEmpty st h = if b.length = 0 then 1 else 0 := by
        unfold xmlBufIsEmpty; rw [hr]
      refine ⟨?_, ?_,
        fun n => Or.inl (by rw [hgrow]),
        haddlen2,
        fun hnone => Option.noConfusion hnone,
        fun b' hb' hstat => absurd hstat (by rw [hinj b' hb']; simp [hs]),
        fun b' hb' _ => ⟨fun s n => by rw [haddo], fun s => by rw [hcato],
          fun n => by rw [hgrow],
          fun n hcap => by rw [haddlen n (by rw [← hinj b' hb']; exact hcap)]⟩,
        fun b' hb' => ?_⟩
      · intro s n
        cases s with
        | none => exact Or.inr (by rw [haddn])
        | some s => exact Or.inl (by rw [haddo])
      · intro s
        cases s with
        | none => exact Or.inr (by rw [hcatn])
        | some s => exact Or.inl (by rw [hcato])
      · rw [hinj b' hb']
        constructor
        · intro hz; rw [hie, if_pos hz]
        · intro hz; rw [hie, if_neg hz]

/-- Witness for claim C10: the concrete codes on the fresh Dynamic buffer. -/
theorem return_code_conventions_witness :
    (xmlBufAdd st1 1 (some [65]) 1).2 = 0 ∧ xmlBufIsEmpty st1 1 = 1 := by
  have t := return_code_conventions st1 1
  refine ⟨(t.2.2.2.2.2.2.1 ⟨List.replicate 10 0, 0, false⟩ (by decide)
    (by decide)).1 [65] 1, ?_⟩
  exact (t.2.2.2.2.2.2.2 ⟨List.replicate 10 0, 0, false⟩ (by decide)).1
    (by decide)

end XmlBuf
